import Mathlib

/-!
Verification of the restaurant-app free-text query parser
(`src/app/query_parser.py`, `src/app/models.py`, `src/app/main.py`).

The Python code is shallowly embedded: strings are Lean `String`
(lists of characters), Python exceptions become `Except String`,
`re` patterns are translated into dedicated scanners that reproduce
the leftmost-search / greedy-with-backtracking semantics of the
specific patterns appearing in the source, and the ambient clock
(`datetime.now`) becomes an explicit `now : String` parameter.
Character classes (`\d`, `\s`, `str.lower`, `str.strip`) are modelled
over the ASCII range, which is where all the patterns and queries of
this code base live.
-/

set_option maxRecDepth 8000

deriving instance DecidableEq for Except

/-! ## Python string primitives -/

/-- Python's whitespace class for `str.strip` and `\s` (ASCII fragment). -/
def pyIsSpace (c : Char) : Bool :=
  c == ' ' || c == '\t' || c == '\n' || c == '\r' || c == '\x0b' || c == '\x0c'

/-- Drop leading whitespace characters. -/
def dropWs : List Char → List Char
  | [] => []
  | c :: rest => if pyIsSpace c then dropWs rest else c :: rest

/-- Python `str.strip()`: remove leading and trailing whitespace. -/
def pyStrip (s : String) : String :=
  ⟨((dropWs s.data).reverse |> dropWs).reverse⟩

/-- Python `str.lower()` on one character (ASCII letters). -/
def pyLowerChar (c : Char) : Char :=
  if 65 ≤ c.toNat && c.toNat ≤ 90 then Char.ofNat (c.toNat + 32) else c

/-- Python `str.lower()`. -/
def pyLower (s : String) : String := ⟨s.data.map pyLowerChar⟩

/-- Numeric value of an ASCII digit character, as in Python `int(c)`. -/
def digitVal (c : Char) : Nat := c.toNat - '0'.toNat

/-- Python lexicographic string comparison `a < b` (by code points). -/
def pyStrLtL : List Char → List Char → Bool
  | [], [] => false
  | [], _ :: _ => true
  | _ :: _, [] => false
  | a :: as, b :: bs =>
    if a.toNat < b.toNat then true
    else if b.toNat < a.toNat then false
    else pyStrLtL as bs

/-- Python `a < b` on strings. -/
def pyStrLt (a b : String) : Bool := pyStrLtL a.data b.data

/-- Python substring test `needle in hay` needs a prefix check first. -/
def isPfx : List Char → List Char → Bool
  | [], _ => true
  | _ :: _, [] => false
  | a :: as, b :: bs => a == b && isPfx as bs

/-- Python `needle in hay` (contiguous substring occurrence). -/
def hasSub (hay needle : List Char) : Bool :=
  if isPfx needle hay then true
  else
    match hay with
    | [] => false
    | _ :: rest => hasSub rest needle

/-! ## Time normalization (`normalize_time`, query_parser.py lines 43-65) -/

/-- Shape recognizer shared by the two anchored regexes
`^(\d{1,2}):(\d{2})$` and `^(\d{2})(\d{2})$`, applied in that order,
returning the parsed (hour, minute).  The one-digit-hour colon form and
the two-digit-hour colon form cannot both match the same string (the
character at index 1 is either a colon or a digit), so the greedy
`\d{1,2}` needs no backtracking here. -/
def parseHM (l : List Char) : Option (Nat × Nat) :=
  match l with
  | [a, b, c, d] =>
    if a.isDigit && (b == ':') && c.isDigit && d.isDigit then
      some (digitVal a, 10 * digitVal c + digitVal d)
    else if a.isDigit && b.isDigit && c.isDigit && d.isDigit then
      some (10 * digitVal a + digitVal b, 10 * digitVal c + digitVal d)
    else none
  | [a, b, c, d, e] =>
    if a.isDigit && b.isDigit && (c == ':') && d.isDigit && e.isDigit then
      some (10 * digitVal a + digitVal b, 10 * digitVal d + digitVal e)
    else none
  | _ => none

/-- Python `f"{h:02d}:{m:02d}"` for `h, m ≤ 99`. -/
def canonHM (h m : Nat) : String :=
  ⟨[Nat.digitChar (h / 10), Nat.digitChar (h % 10), ':',
    Nat.digitChar (m / 10), Nat.digitChar (m % 10)]⟩

/-- Embedding of `normalize_time` (query_parser.py): strip, match the two
shapes, range-check hour then minute, and zero-pad.  The source rebinds
`time_str` to its stripped value, so the error message carries the
stripped token. -/
def normalize_time (time_str : String) : Except String String :=
  match parseHM (pyStrip time_str).data with
  | none => .error ("Invalid time format: " ++ pyStrip time_str)
  | some (h, m) =>
    if h ≤ 23 then
      if m ≤ 59 then .ok (canonHM h m)
      else .error ("Invalid time format: " ++ pyStrip time_str)
    else .error ("Invalid time format: " ++ pyStrip time_str)

/-! ## Record-model time validator (`Restaurant.validate_time`, models.py
lines 43-61).  Deliberately embedded as an independent copy of the source
method (pydantic's `str_strip_whitespace` pre-strip composed with the
validator's own `strip` equals a single strip). -/

/-- Shape recognizer of `validate_time`, a separate transcription of the
same two regexes as they appear in models.py. -/
def parseHMModel (l : List Char) : Option (Nat × Nat) :=
  match l with
  | [a, b, c, d] =>
    if a.isDigit && (b == ':') && c.isDigit && d.isDigit then
      some (digitVal a, 10 * digitVal c + digitVal d)
    else if a.isDigit && b.isDigit && c.isDigit && d.isDigit then
      some (10 * digitVal a + digitVal b, 10 * digitVal c + digitVal d)
    else none
  | [a, b, c, d, e] =>
    if a.isDigit && b.isDigit && (c == ':') && d.isDigit && e.isDigit then
      some (10 * digitVal a + digitVal b, 10 * digitVal d + digitVal e)
    else none
  | _ => none

/-- Zero-padded output as written in models.py. -/
def canonHMModel (h m : Nat) : String :=
  ⟨[Nat.digitChar (h / 10), Nat.digitChar (h % 10), ':',
    Nat.digitChar (m / 10), Nat.digitChar (m % 10)]⟩

/-- Embedding of `Restaurant.validate_time` (models.py): same shapes, a
combined range check, and different error messages. -/
def Restaurant.validate_time (v : String) : Except String String :=
  match parseHMModel (pyStrip v).data with
  | none => .error ("Invalid time format: " ++ pyStrip v ++ ". Use HH:MM or HHMM")
  | some (h, m) =>
    if h ≤ 23 && m ≤ 59 then .ok (canonHMModel h m)
    else .error ("Invalid time: " ++ pyStrip v ++ ". Hour 0-23, minute 0-59")

/-! ## Vegetarian and style extraction (query_parser.py lines 19-92) -/

/-- Embedding of the `STYLES` dict; Python dicts preserve insertion order,
so the load-bearing enumeration order is kept as a list. -/
def STYLES : List (String × String) :=
  [("italian", "Italian"), ("asian", "Asian"),
   ("steakhouse", "Steakhouse"), ("mediterranean", "Mediterranean")]

/-- Embedding of `parse_vegetarian`. -/
def parse_vegetarian (query : String) : String :=
  if hasSub (pyLower query).data "vegetarian".data then "yes" else "no"

/-- Embedding of `parse_style`: scan `STYLES` in order, first key that is a
substring of the lowercased query wins. -/
def parse_style (query : String) : Option String :=
  (STYLES.find? (fun p => hasSub (pyLower query).data p.1.data)).map Prod.snd

/-- Enumeration-ordered list of the styles whose keyword occurs in the
query; used to state the tie-break property. -/
def stylesIn (query : String) : List (String × String) :=
  STYLES.filter (fun p => hasSub (pyLower query).data p.1.data)

/-! ## Scanners for the time-constraint regexes (query_parser.py 95-149)

Each `re.search` call in `parse_time_constraints` is embedded as a
dedicated scanner over the character list.  Backtracking notes, pattern
by pattern: every `\s+` is followed by an element that cannot match a
whitespace character (a digit, a letter, or `-`), so maximal munch is
complete; the two widths of `(\d{1,2}:\d{2})` are mutually exclusive
(the character after the first digit is either `:` or a digit); the
alternation `and|to` has branches with distinct first letters.  The
`opens?|opening` alternation and the optional `(?:at\s+)?` do need
continuation backtracking, which `altsThen` and `optAtThen` implement
in the engine's branch order. -/

/-- Consume an exact literal. -/
def eatLit : List Char → List Char → Option (List Char)
  | [], s => some s
  | _ :: _, [] => none
  | l :: ls, c :: s => if c == l then eatLit ls s else none

/-- Consume the remainder of a whitespace run. -/
def eatWsMore : List Char → List Char
  | [] => []
  | c :: rest => if pyIsSpace c then eatWsMore rest else c :: rest

/-- Consume `\s+`: at least one whitespace character, maximal munch. -/
def eatWs1 : List Char → Option (List Char)
  | [] => none
  | c :: rest => if pyIsSpace c then some (eatWsMore rest) else none

/-- Consume the group `(\d{1,2}:\d{2})` and return (captured text, rest). -/
def eatColonTok (s : List Char) : Option (List Char × List Char) :=
  match s with
  | a :: b :: c :: d :: e :: rest =>
    if a.isDigit && (b == ':') && c.isDigit && d.isDigit then
      some ([a, b, c, d], e :: rest)
    else if a.isDigit && b.isDigit && (c == ':') && d.isDigit && e.isDigit then
      some ([a, b, c, d, e], rest)
    else none
  | [a, b, c, d] =>
    if a.isDigit && (b == ':') && c.isDigit && d.isDigit then
      some ([a, b, c, d], []) else none
  | _ => none

/-- Consume the group `(\d{4})`. -/
def eat4d : List Char → Option (List Char × List Char)
  | a :: b :: c :: d :: rest =>
    if a.isDigit && b.isDigit && c.isDigit && d.isDigit then
      some ([a, b, c, d], rest)
    else none
  | _ => none

/-- First-alternative-wins choice. -/
def orElseO : Option α → Option α → Option α
  | some x, _ => some x
  | none, b => b

/-- Literal alternation with full continuation backtracking, in branch
order, as the regex engine does for `(?:opens?|opening)`. -/
def altsThen (k : List Char → Option α) : List (List Char) → List Char → Option α
  | [], _ => none
  | a :: rest, s =>
    match eatLit a s with
    | some r =>
      match k r with
      | some v => some v
      | none => altsThen k rest s
    | none => altsThen k rest s

/-- Greedy optional `(?:at\s+)?` with backtracking into the continuation. -/
def optAtThen (k : List Char → Option α) (s : List Char) : Option α :=
  match (eatLit ['a', 't'] s).bind eatWs1 with
  | some r =>
    match k r with
    | some v => some v
    | none => k s
  | none => k s

/-- Shared prefix `between\s+` of the four range patterns. -/
def afterBetween (s : List Char) : Option (List Char) :=
  (eatLit ['b', 'e', 't', 'w', 'e', 'e', 'n'] s).bind eatWs1

/-- Anchored attempt of `between\s+(\d{1,2}:\d{2})\s+(?:and|to)\s+(\d{1,2}:\d{2})`. -/
def attemptP1 (s : List Char) : Option (List Char × List Char) :=
  (afterBetween s).bind fun t1 =>
  (eatColonTok t1).bind fun g1 =>
  (eatWs1 g1.2).bind fun t2 =>
  (orElseO (eatLit ['a', 'n', 'd'] t2) (eatLit ['t', 'o'] t2)).bind fun t3 =>
  (eatWs1 t3).bind fun t4 =>
  (eatColonTok t4).map fun g2 => (g1.1, g2.1)

/-- Anchored attempt of `between\s+(\d{4})\s+(?:and|to|-)\s+(\d{4})`. -/
def attemptP2 (s : List Char) : Option (List Char × List Char) :=
  (afterBetween s).bind fun t1 =>
  (eat4d t1).bind fun g1 =>
  (eatWs1 g1.2).bind fun t2 =>
  (orElseO (eatLit ['a', 'n', 'd'] t2)
    (orElseO (eatLit ['t', 'o'] t2) (eatLit ['-'] t2))).bind fun t3 =>
  (eatWs1 t3).bind fun t4 =>
  (eat4d t4).map fun g2 => (g1.1, g2.1)

/-- Anchored attempt of `between\s+(\d{4})-(\d{4})`. -/
def attemptP3 (s : List Char) : Option (List Char × List Char) :=
  (afterBetween s).bind fun t1 =>
  (eat4d t1).bind fun g1 =>
  (eatLit ['-'] g1.2).bind fun t2 =>
  (eat4d t2).map fun g2 => (g1.1, g2.1)

/-- Anchored attempt of `between\s+(\d{1,2}:\d{2})-(\d{1,2}:\d{2})`. -/
def attemptP4 (s : List Char) : Option (List Char × List Char) :=
  (afterBetween s).bind fun t1 =>
  (eatColonTok t1).bind fun g1 =>
  (eatLit ['-'] g1.2).bind fun t2 =>
  (eatColonTok t2).map fun g2 => (g1.1, g2.1)

/-- Anchored attempt of `(?:opens?|opening)\s+(?:at\s+)?(\d{1,2}:\d{2})`. -/
def attemptO1 (s : List Char) : Option (List Char) :=
  altsThen
    (fun r => (eatWs1 r).bind (optAtThen (fun r2 => (eatColonTok r2).map Prod.fst)))
    [['o', 'p', 'e', 'n', 's'], ['o', 'p', 'e', 'n'], ['o', 'p', 'e', 'n', 'i', 'n', 'g']] s

/-- Anchored attempt of `(?:opens?|opening)\s+(?:at\s+)?(\d{4})`. -/
def attemptO2 (s : List Char) : Option (List Char) :=
  altsThen
    (fun r => (eatWs1 r).bind (optAtThen (fun r2 => (eat4d r2).map Prod.fst)))
    [['o', 'p', 'e', 'n', 's'], ['o', 'p', 'e', 'n'], ['o', 'p', 'e', 'n', 'i', 'n', 'g']] s

/-- Anchored attempt of `(?:closes?|closing)\s+(?:at\s+)?(\d{1,2}:\d{2})`. -/
def attemptC1 (s : List Char) : Option (List Char) :=
  altsThen
    (fun r => (eatWs1 r).bind (optAtThen (fun r2 => (eatColonTok r2).map Prod.fst)))
    [['c', 'l', 'o', 's', 'e', 's'], ['c', 'l', 'o', 's', 'e'],
     ['c', 'l', 'o', 's', 'i', 'n', 'g']] s

/-- Anchored attempt of `(?:closes?|closing)\s+(?:at\s+)?(\d{4})`. -/
def attemptC2 (s : List Char) : Option (List Char) :=
  altsThen
    (fun r => (eatWs1 r).bind (optAtThen (fun r2 => (eat4d r2).map Prod.fst)))
    [['c', 'l', 'o', 's', 'e', 's'], ['c', 'l', 'o', 's', 'e'],
     ['c', 'l', 'o', 's', 'i', 'n', 'g']] s

/-- `re.search`: try the anchored attempt at every start position, leftmost
success wins. -/
def reSearch (att : List Char → Option α) : List Char → Option α
  | [] => att []
  | c :: rest =>
    match att (c :: rest) with
    | some v => some v
    | none => reSearch att rest

/-- The `between_patterns` loop: the first pattern (in list order) that
matches anywhere yields its two captured groups; the loop body then
either raises or returns, so later patterns are never consulted. -/
def betweenGroups (l : List Char) : Option (List Char × List Char) :=
  orElseO (reSearch attemptP1 l)
    (orElseO (reSearch attemptP2 l)
      (orElseO (reSearch attemptP3 l) (reSearch attemptP4 l)))

/-- The `opens_patterns` loop. -/
def opensTok (l : List Char) : Option (List Char) :=
  orElseO (reSearch attemptO1 l) (reSearch attemptO2 l)

/-- The `closes_patterns` loop. -/
def closesTok (l : List Char) : Option (List Char) :=
  orElseO (reSearch attemptC1 l) (reSearch attemptC2 l)

/-! ## Time-constraint extraction and the parse pipeline -/

/-- Embedding of `parse_time_constraints`: the query is lowercased; a
`between` match is normalized and rejected if it crosses midnight
(Python's `start > end` string comparison), otherwise opens/closes
patterns are tried, otherwise the current-time default is signalled. -/
def parse_time_constraints (query : String) :
    Except String (Option String × Option String × Bool) :=
  match betweenGroups (pyLower query).data with
  | some (a, b) =>
    match normalize_time ⟨a⟩ with
    | .error e => .error e
    | .ok s =>
      match normalize_time ⟨b⟩ with
      | .error e => .error e
      | .ok e' =>
        if pyStrLt e' s then
          .error ("Time ranges crossing midnight are not supported: " ++ s ++ " to " ++ e')
        else .ok (some s, some e', false)
  | none =>
    match opensTok (pyLower query).data with
    | some t =>
      match normalize_time ⟨t⟩ with
      | .error e => .error e
      | .ok nt => .ok (some nt, none, false)
    | none =>
      match closesTok (pyLower query).data with
      | some t =>
        match normalize_time ⟨t⟩ with
        | .error e => .error e
        | .ok nt => .ok (none, some nt, false)
      | none => .ok (none, none, true)

/-- Embedding of the `ParsedQuery` dataclass. -/
structure ParsedQuery where
  vegetarian : String
  style : Option String
  open_by : Option String
  close_by : Option String
  use_current_time : Bool
  raw_query : String
deriving DecidableEq, Repr

/-- Embedding of `parse_query`: Python's `not query or not query.strip()`
is equivalent to the stripped query being empty; on the non-empty path
the query is stripped before the extractors run. -/
def parse_query (query : String) : Except String ParsedQuery :=
  if (pyStrip query).isEmpty then .error "query is empty"
  else
    match parse_time_constraints (pyStrip query) with
    | .error e => .error e
    | .ok (ob, cb, uc) =>
      .ok { vegetarian := parse_vegetarian (pyStrip query),
            style := parse_style (pyStrip query),
            open_by := ob, close_by := cb, use_current_time := uc,
            raw_query := pyStrip query }

/-- The MongoDB filter dict, keyed by the four fields the code ever sets:
`vegetarian` (equality), `style` (equality), `openHour` with `$lte`,
`closeHour` with `$gte`. -/
structure MongoFilter where
  vegetarian : Option String
  style : Option String
  openHour_lte : Option String
  closeHour_gte : Option String
deriving DecidableEq, Repr

/-- Python truthiness of an `Optional[str]`. -/
def truthy : Option String → Bool
  | none => false
  | some s => !(s == "")

/-- Embedding of `build_mongo_filter`; `get_current_time()` is the
explicit `now` parameter. -/
def build_mongo_filter (now : String) (parsed : ParsedQuery) : MongoFilter :=
  let base : MongoFilter :=
    { vegetarian := some parsed.vegetarian, style := none,
      openHour_lte := none, closeHour_gte := none }
  let f1 := if truthy parsed.style then { base with style := parsed.style } else base
  if parsed.use_current_time then
    { f1 with openHour_lte := some now, closeHour_gte := some now }
  else
    let f2 := if truthy parsed.open_by then { f1 with openHour_lte := parsed.open_by } else f1
    if truthy parsed.close_by then { f2 with closeHour_gte := parsed.close_by } else f2

/-- Embedding of `process_query`: the tri-state dict becomes an `Except`
carrying the filter together with the parsed query. -/
def process_query (now : String) (query : String) :
    Except String (MongoFilter × ParsedQuery) :=
  match parse_query query with
  | .error e => .error e
  | .ok parsed => .ok (build_mongo_filter now parsed, parsed)

/-! ## The `/rest` endpoint (main.py `get_recommendations`) -/

/-- Embedding of the `RestaurantOut` output model. -/
structure RestaurantOut where
  name : String
  style : String
  address : String
  vegetarian : String
  openHour : String
  closeHour : String
deriving DecidableEq, Repr

/-- The `restaurantRecommendation` payload: a string message or a record list. -/
inductive Recommendation where
  | message : String → Recommendation
  | results : List RestaurantOut → Recommendation
deriving DecidableEq, Repr

/-- Embedding of the `/rest` handler: the store is an explicit function
from filters to record lists, the clock an explicit `now`; the handler
short-circuits empty input, surfaces parse errors, and wraps empty
result sets. -/
def get_recommendations (store : MongoFilter → List RestaurantOut)
    (now : String) (query : Option String) : Recommendation :=
  match query with
  | none => .message "query is empty"
  | some q =>
    if (pyStrip q).isEmpty then .message "query is empty"
    else
      match process_query now q with
      | .error e => .message e
      | .ok (f, _) =>
        match store f with
        | [] => .message "There are no results."
        | r :: rs => .results (r :: rs)

/-! ## Spec-side descriptions used to state the claims -/

/-- Directly transcribed from the spec's contract for time tokens: the
token is `H:MM`, `HH:MM`, or `HHMM` over decimal digits, and `h`, `m`
are the hour and minute the digits denote. -/
def TimeTokenSpec (l : List Char) (h m : Nat) : Prop :=
  (∃ a b c, l = [a, ':', b, c] ∧ a.isDigit ∧ b.isDigit ∧ c.isDigit ∧
    h = digitVal a ∧ m = 10 * digitVal b + digitVal c) ∨
  (∃ a b c d, l = [a, b, ':', c, d] ∧ a.isDigit ∧ b.isDigit ∧ c.isDigit ∧ d.isDigit ∧
    h = 10 * digitVal a + digitVal b ∧ m = 10 * digitVal c + digitVal d) ∨
  (∃ a b c d, l = [a, b, c, d] ∧ a.isDigit ∧ b.isDigit ∧ c.isDigit ∧ d.isDigit ∧
    h = 10 * digitVal a + digitVal b ∧ m = 10 * digitVal c + digitVal d)

/-- Textual shape of a rendered time token in a query. -/
inductive TokShape where
  | colon1
  | colon2
  | compact
deriving DecidableEq, Repr

/-- Render a time value in a given textual shape (for `colon1` the hour
must be a single digit). -/
def renderTok : TokShape → Nat → Nat → List Char
  | .colon1, h, m =>
    [Nat.digitChar h, ':', Nat.digitChar (m / 10), Nat.digitChar (m % 10)]
  | .colon2, h, m =>
    [Nat.digitChar (h / 10), Nat.digitChar (h % 10), ':',
     Nat.digitChar (m / 10), Nat.digitChar (m % 10)]
  | .compact, h, m =>
    [Nat.digitChar (h / 10), Nat.digitChar (h % 10),
     Nat.digitChar (m / 10), Nat.digitChar (m % 10)]

/-- Whether a shape is one of the colon forms. -/
def TokShape.isColon : TokShape → Bool
  | .compact => false
  | _ => true

/-! ## Character-level lemmas -/

theorem isDigit_ne_of {c d : Char} (hc : c.isDigit = true) (hd : d.isDigit = false) :
    c ≠ d := by
  intro h
  subst h
  rw [hc] at hd
  exact Bool.noConfusion hd

theorem dc_isDigit {n : Nat} (h : n < 10) : (Nat.digitChar n).isDigit = true := by
  interval_cases n <;> decide

theorem dv_dc {n : Nat} (h : n < 10) : digitVal (Nat.digitChar n) = n := by
  interval_cases n <;> decide

theorem digit_beq_false {c d : Char} (hc : c.isDigit = true) (hd : d.isDigit = false) :
    (c == d) = false := by
  simpa using isDigit_ne_of hc hd

theorem pyIsSpace_digit {c : Char} (h : c.isDigit = true) : pyIsSpace c = false := by
  have h1 := digit_beq_false h (show (' ').isDigit = false by decide)
  have h2 := digit_beq_false h (show ('\t').isDigit = false by decide)
  have h3 := digit_beq_false h (show ('\n').isDigit = false by decide)
  have h4 := digit_beq_false h (show ('\r').isDigit = false by decide)
  have h5 := digit_beq_false h (show ('\x0b').isDigit = false by decide)
  have h6 := digit_beq_false h (show ('\x0c').isDigit = false by decide)
  simp [pyIsSpace, h1, h2, h3, h4, h5, h6]

theorem dropWs_eq_self {l : List Char} (h : ∀ c ∈ l, pyIsSpace c = false) :
    dropWs l = l := by
  induction l with
  | nil => rfl
  | cons c rest ih =>
    have hc : pyIsSpace c = false := h c (by simp)
    simp [dropWs, hc]

theorem string_mk_data (s : String) : (⟨s.data⟩ : String) = s := by
  cases s
  rfl

theorem pyStrip_no_ws {s : String} (h : ∀ c ∈ s.data, pyIsSpace c = false) :
    pyStrip s = s := by
  unfold pyStrip
  rw [dropWs_eq_self h]
  rw [dropWs_eq_self (by intro c hc; exact h c (List.mem_reverse.mp hc))]
  rw [List.reverse_reverse]

/-! ## Characterization of `normalize_time` (groundwork for C3, C7, C8) -/

theorem parseHM_spec_iff (l : List Char) (h m : Nat) :
    parseHM l = some (h, m) ↔ TimeTokenSpec l h m := by
  constructor
  · intro hp
    match l with
    | [] => simp [parseHM] at hp
    | [a] => simp [parseHM] at hp
    | [a, b] => simp [parseHM] at hp
    | [a, b, c] => simp [parseHM] at hp
    | [a, b, c, d] =>
      rw [parseHM] at hp
      by_cases h1 : (a.isDigit && (b == ':') && c.isDigit && d.isDigit) = true
      · rw [if_pos h1] at hp
        obtain ⟨⟨⟨ha, hb⟩, hc⟩, hd⟩ := by
          simpa only [Bool.and_eq_true] using h1
        obtain ⟨hh, hm⟩ : digitVal a = h ∧ 10 * digitVal c + digitVal d = m := by
          simpa only [Option.some.injEq, Prod.mk.injEq] using hp
        exact Or.inl ⟨a, c, d, by rw [eq_of_beq hb], ha, hc, hd, hh.symm, hm.symm⟩
      · rw [if_neg h1] at hp
        by_cases h2 : (a.isDigit && b.isDigit && c.isDigit && d.isDigit) = true
        · rw [if_pos h2] at hp
          obtain ⟨⟨⟨ha, hb⟩, hc⟩, hd⟩ := by
            simpa only [Bool.and_eq_true] using h2
          obtain ⟨hh, hm⟩ : 10 * digitVal a + digitVal b = h ∧
              10 * digitVal c + digitVal d = m := by
            simpa only [Option.some.injEq, Prod.mk.injEq] using hp
          exact Or.inr (Or.inr ⟨a, b, c, d, rfl, ha, hb, hc, hd, hh.symm, hm.symm⟩)
        · rw [if_neg h2] at hp
          exact absurd hp (by simp)
    | [a, b, c, d, e] =>
      rw [parseHM] at hp
      by_cases h1 : (a.isDigit && b.isDigit && (c == ':') && d.isDigit && e.isDigit) = true
      · rw [if_pos h1] at hp
        obtain ⟨⟨⟨⟨ha, hb⟩, hc⟩, hd⟩, he⟩ := by
          simpa only [Bool.and_eq_true] using h1
        obtain ⟨hh, hm⟩ : 10 * digitVal a + digitVal b = h ∧
            10 * digitVal d + digitVal e = m := by
          simpa only [Option.some.injEq, Prod.mk.injEq] using hp
        exact Or.inr (Or.inl ⟨a, b, d, e, by rw [eq_of_beq hc],
          ha, hb, hd, he, hh.symm, hm.symm⟩)
      · rw [if_neg h1] at hp
        exact absurd hp (by simp)
    | a :: b :: c :: d :: e :: f :: rest => simp [parseHM] at hp
  · intro hs
    rcases hs with ⟨a, b, c, hl, ha, hb, hc, hh, hm⟩ |
      ⟨a, b, c, d, hl, ha, hb, hc, hd, hh, hm⟩ |
      ⟨a, b, c, d, hl, ha, hb, hc, hd, hh, hm⟩
    · subst hl hh hm
      simp [parseHM, ha, hb, hc]
    · subst hl hh hm
      simp [parseHM, ha, hb, hc, hd]
    · subst hl hh hm
      have hbc : (b == ':') = false :=
        digit_beq_false hb (show (':').isDigit = false by decide)
      simp [parseHM, ha, hb, hc, hd, hbc]

theorem canonHM_chars (h m : Nat) (hh : h ≤ 23) (hm : m ≤ 59) :
    (canonHM h m).data = [Nat.digitChar (h / 10), Nat.digitChar (h % 10), ':',
      Nat.digitChar (m / 10), Nat.digitChar (m % 10)] ∧
    (Nat.digitChar (h / 10)).isDigit = true ∧ (Nat.digitChar (h % 10)).isDigit = true ∧
    (Nat.digitChar (m / 10)).isDigit = true ∧ (Nat.digitChar (m % 10)).isDigit = true := by
  refine ⟨rfl, dc_isDigit (by omega), dc_isDigit (by omega),
    dc_isDigit (by omega), dc_isDigit (by omega)⟩

theorem normalize_canon (h m : Nat) (hh : h ≤ 23) (hm : m ≤ 59) :
    normalize_time (canonHM h m) = .ok (canonHM h m) := by
  obtain ⟨hdata, d1, d2, d3, d4⟩ := canonHM_chars h m hh hm
  have hstrip : pyStrip (canonHM h m) = canonHM h m := by
    apply pyStrip_no_ws
    intro c hc
    rw [hdata] at hc
    simp only [List.mem_cons, List.not_mem_nil, or_false] at hc
    rcases hc with rfl | rfl | rfl | rfl | rfl
    · exact pyIsSpace_digit d1
    · exact pyIsSpace_digit d2
    · decide
    · exact pyIsSpace_digit d3
    · exact pyIsSpace_digit d4
  have hparse : parseHM (canonHM h m).data = some (h, m) := by
    rw [hdata]
    rw [parseHM_spec_iff]
    refine Or.inr (Or.inl ⟨_, _, _, _, rfl, d1, d2, d3, d4, ?_, ?_⟩)
    · rw [dv_dc (by omega), dv_dc (by omega)]
      omega
    · rw [dv_dc (by omega), dv_dc (by omega)]
      omega
  unfold normalize_time
  rw [hstrip, hparse]
  simp only [if_pos hh, if_pos hm]

theorem normalize_of_spec {s : String} {h m : Nat}
    (hs : TimeTokenSpec (pyStrip s).data h m) :
    normalize_time s =
      (if h ≤ 23 then
        if m ≤ 59 then .ok (canonHM h m)
        else .error ("Invalid time format: " ++ pyStrip s)
      else .error ("Invalid time format: " ++ pyStrip s)) := by
  have hp : parseHM (pyStrip s).data = some (h, m) := (parseHM_spec_iff _ h m).mpr hs
  unfold normalize_time
  rw [hp]

theorem normalize_of_no_spec {s : String}
    (hs : ∀ h m, ¬ TimeTokenSpec (pyStrip s).data h m) :
    normalize_time s = .error ("Invalid time format: " ++ pyStrip s) := by
  have hp : parseHM (pyStrip s).data = none := by
    cases hp : parseHM (pyStrip s).data with
    | none => rfl
    | some v =>
      exact absurd ((parseHM_spec_iff _ v.1 v.2).mp (by rw [← hp])) (hs v.1 v.2)
  unfold normalize_time
  rw [hp]

/-! ## Claim C3: success/failure characterization of `normalize_time` -/

/-- C3: `normalize_time` succeeds exactly when the stripped token has the
shape `H:MM`, `HH:MM`, or `HHMM` with hour in 0..23 and minute in 0..59,
producing the zero-padded canonical string; every other token (wrong
shape or out-of-range field) fails with the invalid-time-format message
carrying the offending (stripped) token. -/
theorem normalize_time_shape_characterization (s : String) :
    (∀ h m, TimeTokenSpec (pyStrip s).data h m →
      ((h ≤ 23 ∧ m ≤ 59) → normalize_time s = .ok (canonHM h m)) ∧
      (¬(h ≤ 23 ∧ m ≤ 59) →
        normalize_time s = .error ("Invalid time format: " ++ pyStrip s))) ∧
    ((∀ h m, ¬ TimeTokenSpec (pyStrip s).data h m) →
      normalize_time s = .error ("Invalid time format: " ++ pyStrip s)) := by
  constructor
  · intro h m hs
    constructor
    · rintro ⟨hh, hm⟩
      rw [normalize_of_spec hs, if_pos hh, if_pos hm]
    · intro hnot
      rw [normalize_of_spec hs]
      by_cases hh : h ≤ 23
      · have hm : ¬ m ≤ 59 := fun hm => hnot ⟨hh, hm⟩
        rw [if_pos hh, if_neg hm]
      · rw [if_neg hh]
  · exact normalize_of_no_spec

theorem normalize_time_shape_characterization_witness :
    normalize_time "9:30" = .ok (canonHM 9 30) ∧
    normalize_time "99:99" = .error ("Invalid time format: " ++ pyStrip "99:99") := by
  constructor
  · exact ((normalize_time_shape_characterization "9:30").1 9 30
      (Or.inl ⟨'9', '3', '0', by decide, by decide, by decide, by decide,
        by decide, by decide⟩)).1 ⟨by omega, by omega⟩
  · exact ((normalize_time_shape_characterization "99:99").1 99 99
      (Or.inr (Or.inl ⟨'9', '9', '9', '9', by decide, by decide, by decide,
        by decide, by decide, by decide, by decide⟩))).2 (by omega)

/-! ## Claim C7: idempotence of normalization -/

/-- C7: on every token of a valid shape with in-range fields, the output
is a fixed-width two-digit colon two-digit string, and re-normalizing the
output returns it unchanged. -/
theorem normalize_time_idempotent (s : String) (h m : Nat)
    (hs : TimeTokenSpec (pyStrip s).data h m) (hh : h ≤ 23) (hm : m ≤ 59) :
    normalize_time s = .ok (canonHM h m) ∧
    (∃ d1 d2 d3 d4, (canonHM h m).data = [d1, d2, ':', d3, d4] ∧
      d1.isDigit = true ∧ d2.isDigit = true ∧ d3.isDigit = true ∧ d4.isDigit = true) ∧
    normalize_time (canonHM h m) = .ok (canonHM h m) := by
  refine ⟨by rw [normalize_of_spec hs, if_pos hh, if_pos hm], ?_, normalize_canon h m hh hm⟩
  exact ⟨_, _, _, _, rfl, dc_isDigit (by omega), dc_isDigit (by omega),
    dc_isDigit (by omega), dc_isDigit (by omega)⟩

theorem normalize_time_idempotent_witness :
    normalize_time "1730" = .ok (canonHM 17 30) ∧
    normalize_time (canonHM 17 30) = .ok (canonHM 17 30) := by
  obtain ⟨h1, _, h3⟩ := normalize_time_idempotent "1730" 17 30
    (Or.inr (Or.inr ⟨'1', '7', '3', '0', by decide, by decide, by decide,
      by decide, by decide, by decide, by decide⟩)) (by omega) (by omega)
  exact ⟨h1, h3⟩

/-! ## Claim C8: the parser normalizer and the record-model validator agree -/

/-- C8: `Restaurant.validate_time` and `normalize_time` accept exactly the
same tokens and, on acceptance, produce the same canonical string (they
differ only in their error messages). -/
theorem validate_time_refines_normalize_time (v : String) :
    (Restaurant.validate_time v).toOption = (normalize_time v).toOption := by
  unfold Restaurant.validate_time normalize_time
  rw [show parseHMModel = parseHM from rfl]
  cases hp : parseHM (pyStrip v).data with
  | none => rfl
  | some hm =>
    obtain ⟨h, m⟩ := hm
    by_cases hh : h ≤ 23
    · by_cases hmm : m ≤ 59
      · simp [hh, hmm]
        rfl
      · simp [hh, hmm]
        rfl
    · simp [hh]
      rfl

/-! ## Claim C4: enumeration-order tie-break for styles -/

/-- C4: when keywords of two or more styles occur in the query, the style
earliest in the fixed enumeration order wins regardless of text position,
and a query with no style keyword yields no style. -/
theorem parse_style_enum_order (q : String) :
    (stylesIn q = [] → parse_style q = none) ∧
    (2 ≤ (stylesIn q).length →
      parse_style q = ((stylesIn q).head?).map Prod.snd) := by
  have key : parse_style q = ((stylesIn q).head?).map Prod.snd := by
    unfold parse_style stylesIn STYLES
    cases h1 : hasSub (pyLower q).data "italian".data <;>
    cases h2 : hasSub (pyLower q).data "asian".data <;>
    cases h3 : hasSub (pyLower q).data "steakhouse".data <;>
    cases h4 : hasSub (pyLower q).data "mediterranean".data <;>
      simp [List.find?, List.filter, h1, h2, h3, h4]
  exact ⟨fun h => by rw [key, h]; rfl, fun _ => key⟩

theorem parse_style_enum_order_witness :
    parse_style "mediterranean italian" = some "Italian" := by
  have h := (parse_style_enum_order "mediterranean italian").2 (by decide)
  rw [h]
  decide

/-! ## Ordering lemmas for Python string comparison -/

theorem pyStrLtL_irrefl (l : List Char) : pyStrLtL l l = false := by
  induction l with
  | nil => rfl
  | cons a as ih => simp [pyStrLtL, ih]

theorem pyStrLtL_asymm {l1 l2 : List Char} (h : pyStrLtL l1 l2 = true) :
    pyStrLtL l2 l1 = false := by
  induction l1 generalizing l2 with
  | nil =>
    cases l2 with
    | nil => exact absurd h (by simp [pyStrLtL])
    | cons b bs => rfl
  | cons a as ih =>
    cases l2 with
    | nil => exact absurd h (by simp [pyStrLtL])
    | cons b bs =>
      by_cases h1 : a.toNat < b.toNat
      · simp [pyStrLtL, Nat.lt_asymm h1, h1]
      · by_cases h2 : b.toNat < a.toNat
        · rw [pyStrLtL, if_neg h1, if_pos h2] at h
          exact absurd h (by simp)
        · rw [pyStrLtL, if_neg h1, if_neg h2] at h
          rw [pyStrLtL, if_neg h2, if_neg h1]
          exact ih h

theorem pyStrLt_irrefl (s : String) : pyStrLt s s = false := pyStrLtL_irrefl s.data

theorem pyStrLt_asymm {s t : String} (h : pyStrLt s t = true) : pyStrLt t s = false :=
  pyStrLtL_asymm h

/-! ## Claim C2: midnight-crossing policy of range extraction -/

/-- C2: on a matched between range whose endpoints both normalize, a
start lexicographically greater than the end fails with the
midnight-crossing message naming both endpoints, equal endpoints give a
zero-width range, a smaller start succeeds, and the single-sided
opens/closes forms never perform the comparison. -/
theorem between_range_midnight_policy (q : String) :
    (∀ a b na nb, betweenGroups (pyLower q).data = some (a, b) →
      normalize_time ⟨a⟩ = .ok na → normalize_time ⟨b⟩ = .ok nb →
      ((pyStrLt nb na = true →
        parse_time_constraints q =
          .error ("Time ranges crossing midnight are not supported: " ++ na ++ " to " ++ nb)) ∧
       (na = nb → parse_time_constraints q = .ok (some na, some nb, false)) ∧
       (pyStrLt na nb = true →
        parse_time_constraints q = .ok (some na, some nb, false)))) ∧
    (∀ t nt, betweenGroups (pyLower q).data = none →
      opensTok (pyLower q).data = some t → normalize_time ⟨t⟩ = .ok nt →
      parse_time_constraints q = .ok (some nt, none, false)) ∧
    (∀ t nt, betweenGroups (pyLower q).data = none →
      opensTok (pyLower q).data = none → closesTok (pyLower q).data = some t →
      normalize_time ⟨t⟩ = .ok nt →
      parse_time_constraints q = .ok (none, some nt, false)) := by
  refine ⟨?_, ?_, ?_⟩
  · intro a b na nb hb hna hnb
    refine ⟨?_, ?_, ?_⟩
    · intro hlt
      simp [parse_time_constraints, hb, hna, hnb, hlt]
    · intro heq
      subst heq
      simp [parse_time_constraints, hb, hna, hnb, pyStrLt_irrefl]
    · intro hlt
      simp [parse_time_constraints, hb, hna, hnb, pyStrLt_asymm hlt]
  · intro t nt hb ho hn
    simp [parse_time_constraints, hb, ho, hn]
  · intro t nt hb ho hc hn
    simp [parse_time_constraints, hb, ho, hc, hn]

theorem between_range_midnight_policy_witness :
    parse_time_constraints "between 10:00 and 09:30" =
      .error ("Time ranges crossing midnight are not supported: " ++ "10:00" ++ " to " ++ "09:30") ∧
    parse_time_constraints "between 10:00 and 10:00" =
      .ok (some "10:00", some "10:00", false) ∧
    parse_time_constraints "opens at 9:30" = .ok (some "09:30", none, false) := by
  refine ⟨?_, ?_, ?_⟩
  · exact (((between_range_midnight_policy "between 10:00 and 09:30").1
      "10:00".data "09:30".data "10:00" "09:30" (by decide) (by decide) (by decide)).1 (by decide))
  · exact (((between_range_midnight_policy "between 10:00 and 10:00").1
      "10:00".data "10:00".data "10:00" "10:00" (by decide) (by decide) (by decide)).2.1 rfl)
  · exact ((between_range_midnight_policy "opens at 9:30").2.1
      "9:30".data "09:30" (by decide) (by decide) (by decide))

/-! ## Claim C10: out-of-range tokens abort the parse -/

/-- C10: whenever a between/opens/closes pattern has matched textually
but a captured token fails normalization, `parse_time_constraints`
propagates that invalid-time-format error (no fall-through to a later
pattern or the current-time default), and a failing extraction aborts
`parse_query` and `process_query` with the same message. -/
theorem out_of_range_token_aborts (q now : String) :
    (∀ a b msg, betweenGroups (pyLower q).data = some (a, b) →
      normalize_time ⟨a⟩ = .error msg → parse_time_constraints q = .error msg) ∧
    (∀ a b na msg, betweenGroups (pyLower q).data = some (a, b) →
      normalize_time ⟨a⟩ = .ok na → normalize_time ⟨b⟩ = .error msg →
      parse_time_constraints q = .error msg) ∧
    (∀ t msg, betweenGroups (pyLower q).data = none →
      opensTok (pyLower q).data = some t → normalize_time ⟨t⟩ = .error msg →
      parse_time_constraints q = .error msg) ∧
    (∀ t msg, betweenGroups (pyLower q).data = none →
      opensTok (pyLower q).data = none → closesTok (pyLower q).data = some t →
      normalize_time ⟨t⟩ = .error msg →
      parse_time_constraints q = .error msg) ∧
    (∀ msg, parse_time_constraints (pyStrip q) = .error msg →
      (pyStrip q).isEmpty = false →
      parse_query q = .error msg ∧ process_query now q = .error msg) := by
  refine ⟨?_, ?_, ?_, ?_, ?_⟩
  · intro a b msg hb hn
    simp [parse_time_constraints, hb, hn]
  · intro a b na msg hb hna hnb
    simp [parse_time_constraints, hb, hna, hnb]
  · intro t msg hb ho hn
    simp [parse_time_constraints, hb, ho, hn]
  · intro t msg hb ho hc hn
    simp [parse_time_constraints, hb, ho, hc, hn]
  · intro msg hptc hne
    have hpq : parse_query q = .error msg := by
      simp [parse_query, hne, hptc]
    exact ⟨hpq, by simp [process_query, hpq]⟩

theorem out_of_range_token_aborts_witness :
    parse_time_constraints "opens at 25:00" = .error "Invalid time format: 25:00" ∧
    process_query "12:00" "opens at 25:00" = .error "Invalid time format: 25:00" := by
  refine ⟨?_, ?_⟩
  · exact (out_of_range_token_aborts "opens at 25:00" "12:00").2.2.1
      ['2', '5', ':', '0', '0'] "Invalid time format: 25:00"
      (by decide) (by decide) (by decide)
  · exact ((out_of_range_token_aborts "opens at 25:00" "12:00").2.2.2.2
      "Invalid time format: 25:00" (by decide) (by decide)).2

/-! ## Shape of successful time-constraint extraction (for C5) -/

theorem canonHM_ne_empty (h m : Nat) : canonHM h m ≠ "" := by
  intro hc
  have : (canonHM h m).data = ("" : String).data := by rw [hc]
  simp [canonHM] at this

theorem normalize_ok_ne_empty {t s : String} (h : normalize_time t = .ok s) :
    s ≠ "" := by
  unfold normalize_time at h
  cases hp : parseHM (pyStrip t).data with
  | none => rw [hp] at h; exact absurd h (by simp)
  | some hm =>
    obtain ⟨a, b⟩ := hm
    rw [hp] at h
    dsimp only at h
    by_cases h1 : a ≤ 23
    · by_cases h2 : b ≤ 59
      · rw [if_pos h1, if_pos h2] at h
        cases h
        exact canonHM_ne_empty a b
      · rw [if_pos h1, if_neg h2] at h
        exact absurd h (by simp)
    · rw [if_neg h1] at h
      exact absurd h (by simp)

theorem ptc_shape {q : String} {r : Option String × Option String × Bool}
    (h : parse_time_constraints q = .ok r) :
    r = (none, none, true) ∨
    (∃ s e, r = (some s, some e, false) ∧ s ≠ "" ∧ e ≠ "") ∨
    (∃ s, r = (some s, none, false) ∧ s ≠ "") ∨
    (∃ e, r = (none, some e, false) ∧ e ≠ "") := by
  unfold parse_time_constraints at h
  cases hb : betweenGroups (pyLower q).data with
  | some ab =>
    obtain ⟨a, b⟩ := ab
    rw [hb] at h
    dsimp only at h
    cases hna : normalize_time ⟨a⟩ with
    | error e => rw [hna] at h; exact absurd h (by simp)
    | ok s =>
      rw [hna] at h
      dsimp only at h
      cases hnb : normalize_time ⟨b⟩ with
      | error e => rw [hnb] at h; exact absurd h (by simp)
      | ok e =>
        rw [hnb] at h
        dsimp only at h
        by_cases hlt : pyStrLt e s = true
        · rw [if_pos hlt] at h; exact absurd h (by simp)
        · rw [if_neg hlt] at h
          cases h
          exact Or.inr (Or.inl ⟨s, e, rfl, normalize_ok_ne_empty hna,
            normalize_ok_ne_empty hnb⟩)
  | none =>
    rw [hb] at h
    dsimp only at h
    cases ho : opensTok (pyLower q).data with
    | some t =>
      rw [ho] at h
      dsimp only at h
      cases hn : normalize_time ⟨t⟩ with
      | error e => rw [hn] at h; exact absurd h (by simp)
      | ok nt =>
        rw [hn] at h
        dsimp only at h
        cases h
        exact Or.inr (Or.inr (Or.inl ⟨nt, rfl, normalize_ok_ne_empty hn⟩))
    | none =>
      rw [ho] at h
      dsimp only at h
      cases hc : closesTok (pyLower q).data with
      | some t =>
        rw [hc] at h
        dsimp only at h
        cases hn : normalize_time ⟨t⟩ with
        | error e => rw [hn] at h; exact absurd h (by simp)
        | ok nt =>
          rw [hn] at h
          dsimp only at h
          cases h
          exact Or.inr (Or.inr (Or.inr ⟨nt, rfl, normalize_ok_ne_empty hn⟩))
      | none =>
        rw [hc] at h
        dsimp only at h
        cases h
        exact Or.inl rfl

theorem parse_style_ne_empty {q : String} {v : String}
    (h : parse_style q = some v) : v ≠ "" := by
  unfold parse_style at h
  obtain ⟨pr, hfind, hv⟩ := Option.map_eq_some'.mp h
  have hmem := List.mem_of_find?_eq_some hfind
  subst hv
  simp only [STYLES, List.mem_cons, List.not_mem_nil, or_false] at hmem
  rcases hmem with rfl | rfl | rfl | rfl <;> decide

/-! ## Claim C5: the assembled filter has exactly one time mode -/

theorem truthy_some_of_ne {s : String} (h : s ≠ "") : truthy (some s) = true := by
  simp [truthy, h]

theorem build_filter_fields (now : String) (p : ParsedQuery) :
    (build_mongo_filter now p).vegetarian = some p.vegetarian ∧
    (build_mongo_filter now p).style = (if truthy p.style then p.style else none) ∧
    (build_mongo_filter now p).openHour_lte =
      (if p.use_current_time then some now
       else if truthy p.open_by then p.open_by else none) ∧
    (build_mongo_filter now p).closeHour_gte =
      (if p.use_current_time then some now
       else if truthy p.close_by then p.close_by else none) := by
  unfold build_mongo_filter
  by_cases hs : truthy p.style <;> by_cases hu : p.use_current_time <;>
    by_cases ho : truthy p.open_by <;> by_cases hc : truthy p.close_by <;>
    simp [hs, hu, ho, hc]

/-- C5: on every successful `process_query`, the filter always carries the
vegetarian key, carries the style key exactly when a style was extracted,
and carries exactly one of the two time modes: the current-time bounds
when no explicit time was parsed, or the extracted explicit bounds (at
least one present) otherwise. -/
theorem process_query_filter_modes (now q : String) (f : MongoFilter) (p : ParsedQuery)
    (h : process_query now q = .ok (f, p)) :
    f.vegetarian = some p.vegetarian ∧
    f.style = p.style ∧
    (p.use_current_time = true →
      p.open_by = none ∧ p.close_by = none ∧
      f.openHour_lte = some now ∧ f.closeHour_gte = some now) ∧
    (p.use_current_time = false →
      f.openHour_lte = p.open_by ∧ f.closeHour_gte = p.close_by ∧
      (p.open_by ≠ none ∨ p.close_by ≠ none)) := by
  unfold process_query at h
  cases hpq : parse_query q with
  | error e => rw [hpq] at h; exact absurd h (by simp)
  | ok p' =>
    rw [hpq] at h
    dsimp only at h
    have hfp : f = build_mongo_filter now p' ∧ p = p' := by
      constructor <;> · cases h; rfl
    obtain ⟨hf, hp⟩ := hfp
    subst hp
    unfold parse_query at hpq
    by_cases he : (pyStrip q).isEmpty
    · rw [if_pos he] at hpq; exact absurd hpq (by simp)
    · rw [if_neg he] at hpq
      cases hptc : parse_time_constraints (pyStrip q) with
      | error e => rw [hptc] at hpq; exact absurd hpq (by simp)
      | ok r =>
        obtain ⟨ob, cb, uc⟩ := r
        rw [hptc] at hpq
        dsimp only at hpq
        have hp' : p =
            { vegetarian := parse_vegetarian (pyStrip q),
              style := parse_style (pyStrip q), open_by := ob, close_by := cb,
              use_current_time := uc, raw_query := pyStrip q } := by
          cases hpq; rfl
        obtain ⟨hveg, hstyl, hopen, hclose⟩ := build_filter_fields now p
        rw [← hf] at hveg hstyl hopen hclose
        have hstyle_eq : f.style = p.style := by
          cases hps : p.style with
          | none =>
            rw [hps] at hstyl
            simpa [truthy] using hstyl
          | some v =>
            have hv : v ≠ "" := parse_style_ne_empty (q := pyStrip q)
              (by rw [← hps, hp'])
            rw [hps] at hstyl
            rw [hstyl, if_pos (truthy_some_of_ne hv)]
        have hob : p.open_by = ob := by rw [hp']
        have hcb : p.close_by = cb := by rw [hp']
        have huc : p.use_current_time = uc := by rw [hp']
        refine ⟨hveg, hstyle_eq, ?_, ?_⟩
        · intro hcur
          rcases ptc_shape (q := pyStrip q) hptc with hr | ⟨s1, e1, hr, _, _⟩ |
              ⟨s1, hr, _⟩ | ⟨e1, hr, _⟩
          all_goals (
            rw [Prod.mk.injEq, Prod.mk.injEq] at hr
            obtain ⟨h1, h2, h3⟩ := hr)
          · refine ⟨by rw [hob, h1], by rw [hcb, h2], ?_, ?_⟩
            · rw [hopen, if_pos hcur]
            · rw [hclose, if_pos hcur]
          all_goals (rw [huc, h3] at hcur; exact absurd hcur (by simp))
        · intro hcur
          have hcur' : ¬ (p.use_current_time = true) := by simp [hcur]
          rcases ptc_shape (q := pyStrip q) hptc with hr | ⟨s1, e1, hr, hs1, he1⟩ |
              ⟨s1, hr, hs1⟩ | ⟨e1, hr, he1⟩
          all_goals (
            rw [Prod.mk.injEq, Prod.mk.injEq] at hr
            obtain ⟨h1, h2, h3⟩ := hr)
          · rw [huc, h3] at hcur; exact absurd hcur (by simp)
          · refine ⟨?_, ?_, ?_⟩
            · rw [hopen, if_neg hcur', hob, h1,
                if_pos (truthy_some_of_ne hs1)]
            · rw [hclose, if_neg hcur', hcb, h2,
                if_pos (truthy_some_of_ne he1)]
            · rw [hob, h1]; exact Or.inl (by simp)
          · refine ⟨?_, ?_, ?_⟩
            · rw [hopen, if_neg hcur', hob, h1,
                if_pos (truthy_some_of_ne hs1)]
            · rw [hclose, if_neg hcur', hcb, h2]
              simp [truthy]
            · rw [hob, h1]; exact Or.inl (by simp)
          · refine ⟨?_, ?_, ?_⟩
            · rw [hopen, if_neg hcur', hob, h1]
              simp [truthy]
            · rw [hclose, if_neg hcur', hcb, h2,
                if_pos (truthy_some_of_ne he1)]
            · rw [hcb, h2]; exact Or.inr (by simp)

theorem process_query_filter_modes_witness :
    (process_query "12:00" "vegetarian steakhouse between 10:00 and 18:30" = .ok
      ({ vegetarian := some "yes", style := some "Steakhouse",
         openHour_lte := some "10:00", closeHour_gte := some "18:30" },
       { vegetarian := "yes", style := some "Steakhouse", open_by := some "10:00",
         close_by := some "18:30", use_current_time := false,
         raw_query := "vegetarian steakhouse between 10:00 and 18:30" })) ∧
    ({ vegetarian := some "yes", style := some "Steakhouse",
       openHour_lte := some "10:00", closeHour_gte := some "18:30" } :
        MongoFilter).vegetarian = some "yes" ∧
    (some "10:00" ≠ (none : Option String) ∨ some "18:30" ≠ (none : Option String)) := by
  have hrun : process_query "12:00" "vegetarian steakhouse between 10:00 and 18:30" = .ok
      ({ vegetarian := some "yes", style := some "Steakhouse",
         openHour_lte := some "10:00", closeHour_gte := some "18:30" },
       { vegetarian := "yes", style := some "Steakhouse", open_by := some "10:00",
         close_by := some "18:30", use_current_time := false,
         raw_query := "vegetarian steakhouse between 10:00 and 18:30" }) := by decide
  have h := process_query_filter_modes "12:00"
    "vegetarian steakhouse between 10:00 and 18:30" _ _ hrun
  exact ⟨hrun, h.1, (h.2.2.2 rfl).2.2⟩

/-! ## Claim C6: empty or whitespace-only input short-circuits -/

/-- C6: empty or all-whitespace input (and an absent query parameter)
yields the fixed message with no filter built; the handler's result is
independent of the store and of the clock, and the parser itself also
rejects such input with the same message. -/
theorem empty_query_short_circuit (store store' : MongoFilter → List RestaurantOut)
    (now now' : String) (q : String) (h : (pyStrip q).isEmpty = true) :
    get_recommendations store now (some q) = .message "query is empty" ∧
    get_recommendations store now none = .message "query is empty" ∧
    get_recommendations store now (some q) = get_recommendations store' now' (some q) ∧
    parse_query q = .error "query is empty" ∧
    process_query now q = .error "query is empty" := by
  have hpq : parse_query q = .error "query is empty" := by
    simp [parse_query, h]
  refine ⟨?_, rfl, ?_, hpq, ?_⟩
  · simp [get_recommendations, h]
  · simp [get_recommendations, h]
  · simp [process_query, hpq]

theorem empty_query_short_circuit_witness :
    get_recommendations (fun _ => []) "12:00" (some "   ") = .message "query is empty" ∧
    process_query "12:00" "   " = .error "query is empty" := by
  obtain ⟨h1, _, _, _, h5⟩ := empty_query_short_circuit (fun _ => [])
    (fun _ => [{ name := "x", style := "Asian", address := "y",
                 vegetarian := "no", openHour := "09:00", closeHour := "17:00" }])
    "12:00" "13:00" "   " (by decide)
  exact ⟨h1, h5⟩

/-! ## Claim C9: the retained raw query is the stripped query -/

/-- C9 as stated is false: `parse_query` strips the input before storing
it, so surrounding whitespace is not retained.  At the input
`" italian "` parsing succeeds with `raw_query = "italian"`, which
differs from the input. -/
theorem parse_query_raw_counterexample :
    parse_query " italian " =
      .ok { vegetarian := "no", style := some "Italian", open_by := none,
            close_by := none, use_current_time := true, raw_query := "italian" } ∧
    ("italian" : String) ≠ " italian " := by
  exact ⟨by decide, by decide⟩

/-- C9 amended: on every successful parse, the `ParsedQuery` retains the
stripped form of the query: `raw_query` equals the input with leading
and trailing whitespace removed (equal to the input itself whenever the
input carries no surrounding whitespace). -/
theorem parse_query_raw_is_stripped (q : String) (p : ParsedQuery)
    (h : parse_query q = .ok p) : p.raw_query = pyStrip q := by
  unfold parse_query at h
  by_cases he : (pyStrip q).isEmpty
  · rw [if_pos he] at h
    exact absurd h (by simp)
  · rw [if_neg he] at h
    cases hptc : parse_time_constraints (pyStrip q) with
    | error e =>
      rw [hptc] at h
      exact absurd h (by simp)
    | ok r =>
      obtain ⟨ob, cb, uc⟩ := r
      rw [hptc] at h
      dsimp only at h
      cases h
      rfl

theorem parse_query_raw_is_stripped_witness :
    ParsedQuery.raw_query
      { vegetarian := "no", style := some "Italian", open_by := none,
        close_by := none, use_current_time := true, raw_query := "italian" } =
      pyStrip " italian " :=
  parse_query_raw_is_stripped " italian " _ (by decide)

/-! ## Claim C1: scanner lemmas for symbolic between-queries -/

theorem eatLit_append (p r : List Char) : eatLit p (p ++ r) = some r := by
  induction p with
  | nil => rfl
  | cons c cs ih => simp [eatLit, ih]

theorem eatWs1_space (r : List Char) : eatWs1 (' ' :: r) = some (eatWsMore r) := rfl

theorem eatWsMore_nospace {c : Char} {r : List Char} (h : pyIsSpace c = false) :
    eatWsMore (c :: r) = c :: r := by
  simp [eatWsMore, h]

theorem eatWs1_nospace {c : Char} {r : List Char} (h : pyIsSpace c = false) :
    eatWs1 (c :: r) = none := by
  simp [eatWs1, h]

theorem eatColonTok_w1 {a c d : Char} (rest : List Char) (ha : a.isDigit = true)
    (hc : c.isDigit = true) (hd : d.isDigit = true) :
    eatColonTok (a :: ':' :: c :: d :: rest) = some ([a, ':', c, d], rest) := by
  cases rest with
  | nil => simp [eatColonTok, ha, hc, hd]
  | cons e r => simp [eatColonTok, ha, hc, hd]

theorem eatColonTok_w2 {a b c d : Char} (rest : List Char) (ha : a.isDigit = true)
    (hb : b.isDigit = true) (hc : c.isDigit = true) (hd : d.isDigit = true) :
    eatColonTok (a :: b :: ':' :: c :: d :: rest) = some ([a, b, ':', c, d], rest) := by
  have hb' : (b == ':') = false := digit_beq_false hb (by decide)
  simp [eatColonTok, ha, hb, hc, hd, hb']

theorem eatColonTok_digits_fail {a b c : Char} (d : Char) (rest : List Char)
    (hb : b.isDigit = true) (hc : c.isDigit = true) :
    eatColonTok (a :: b :: c :: d :: rest) = none := by
  have hb' : (b == ':') = false := digit_beq_false hb (by decide)
  have hc' : (c == ':') = false := digit_beq_false hc (by decide)
  cases rest with
  | nil => simp [eatColonTok, hb']
  | cons e r => simp [eatColonTok, hb', hc']

theorem eat4d_ok {a b c d : Char} (rest : List Char) (ha : a.isDigit = true)
    (hb : b.isDigit = true) (hc : c.isDigit = true) (hd : d.isDigit = true) :
    eat4d (a :: b :: c :: d :: rest) = some ([a, b, c, d], rest) := by
  simp [eat4d, ha, hb, hc, hd]

theorem eat4d_fail2 {a b : Char} (c d : Char) (rest : List Char)
    (hb : b.isDigit = false) :
    eat4d (a :: b :: c :: d :: rest) = none := by
  simp [eat4d, hb]

theorem eat4d_fail3 {a b c : Char} (d : Char) (rest : List Char)
    (hc : c.isDigit = false) :
    eat4d (a :: b :: c :: d :: rest) = none := by
  simp [eat4d, hc]

theorem reSearch_pos {α : Type} {att : List Char → Option α} {l : List Char}
    {r : α} (h : att l = some r) : reSearch att l = some r := by
  cases l with
  | nil => simpa [reSearch] using h
  | cons c rest => simp [reSearch, h]

theorem reSearch_cons_none {α : Type} {att : List Char → Option α} {c : Char}
    {rest : List Char} (h : att (c :: rest) = none) :
    reSearch att (c :: rest) = reSearch att rest := by
  simp [reSearch, h]

theorem reSearch_none_of_no_b {α : Type} (att : List Char → Option α)
    (hnil : att [] = none) (hhd : ∀ c r, c ≠ 'b' → att (c :: r) = none) :
    ∀ l : List Char, (∀ c ∈ l, c ≠ 'b') → reSearch att l = none := by
  intro l
  induction l with
  | nil => intro _; simpa [reSearch] using hnil
  | cons c rest ih =>
    intro h
    rw [reSearch_cons_none (hhd c rest (h c (by simp)))]
    exact ih (fun x hx => h x (by simp [hx]))

theorem afterBetween_ne_b {c : Char} {r : List Char} (h : c ≠ 'b') :
    afterBetween (c :: r) = none := by
  have hcb : (c == 'b') = false := by simpa using h
  simp [afterBetween, eatLit, hcb]

theorem attemptP1_nil : attemptP1 [] = none := rfl

theorem attemptP1_ne_b {c : Char} {r : List Char} (h : c ≠ 'b') :
    attemptP1 (c :: r) = none := by
  simp [attemptP1, afterBetween_ne_b h]

theorem attemptP2_nil : attemptP2 [] = none := rfl

theorem attemptP2_ne_b {c : Char} {r : List Char} (h : c ≠ 'b') :
    attemptP2 (c :: r) = none := by
  simp [attemptP2, afterBetween_ne_b h]

theorem attemptP3_nil : attemptP3 [] = none := rfl

theorem attemptP3_ne_b {c : Char} {r : List Char} (h : c ≠ 'b') :
    attemptP3 (c :: r) = none := by
  simp [attemptP3, afterBetween_ne_b h]

theorem dc_facts {n : Nat} (h : n < 10) :
    (Nat.digitChar n).isDigit = true ∧
    pyLowerChar (Nat.digitChar n) = Nat.digitChar n ∧
    Nat.digitChar n ≠ 'b' := by
  interval_cases n <;> refine ⟨by decide, by decide, by decide⟩

theorem map_fix {f : Char → Char} : ∀ l : List Char, (∀ c ∈ l, f c = c) →
    l.map f = l := by
  intro l
  induction l with
  | nil => intro _; rfl
  | cons c rest ih =>
    intro h
    simp only [List.map_cons, h c (by simp), ih (fun x hx => h x (by simp [hx]))]

theorem pyLower_fix {s : String} (h : ∀ c ∈ s.data, pyLowerChar c = c) :
    pyLower s = s := by
  unfold pyLower
  rw [map_fix s.data h]

theorem eatLit_ne_head {l c : Char} (ls s : List Char) (h : c ≠ l) :
    eatLit (l :: ls) (c :: s) = none := by
  have : (c == l) = false := by simpa using h
  simp [eatLit, this]

theorem afterBetween_hit (x : List Char) :
    afterBetween ('b' :: 'e' :: 't' :: 'w' :: 'e' :: 'e' :: 'n' :: ' ' :: x) =
      some (eatWsMore x) := by
  unfold afterBetween
  rw [show ('b' :: 'e' :: 't' :: 'w' :: 'e' :: 'e' :: 'n' :: ' ' :: x) =
    (['b', 'e', 't', 'w', 'e', 'e', 'n'] : List Char) ++ (' ' :: x) from rfl,
    eatLit_append]
  rfl

/-! ### Facts about rendered tokens -/

theorem render_no_b {sh : TokShape} {h m : Nat} (hh : h ≤ 23) (hm : m ≤ 59)
    (h9 : sh = TokShape.colon1 → h ≤ 9) : ∀ c ∈ renderTok sh h m, c ≠ 'b' := by
  cases sh with
  | colon1 =>
    intro c hc
    simp only [renderTok, List.mem_cons, List.not_mem_nil, or_false] at hc
    rcases hc with rfl | rfl | rfl | rfl
    · exact (dc_facts (show h < 10 by have := h9 rfl; omega)).2.2
    · decide
    · exact (dc_facts (by omega)).2.2
    · exact (dc_facts (by omega)).2.2
  | colon2 =>
    intro c hc
    simp only [renderTok, List.mem_cons, List.not_mem_nil, or_false] at hc
    rcases hc with rfl | rfl | rfl | rfl | rfl
    · exact (dc_facts (by omega)).2.2
    · exact (dc_facts (by omega)).2.2
    · decide
    · exact (dc_facts (by omega)).2.2
    · exact (dc_facts (by omega)).2.2
  | compact =>
    intro c hc
    simp only [renderTok, List.mem_cons, List.not_mem_nil, or_false] at hc
    rcases hc with rfl | rfl | rfl | rfl
    · exact (dc_facts (by omega)).2.2
    · exact (dc_facts (by omega)).2.2
    · exact (dc_facts (by omega)).2.2
    · exact (dc_facts (by omega)).2.2

theorem render_lower {sh : TokShape} {h m : Nat} (hh : h ≤ 23) (hm : m ≤ 59)
    (h9 : sh = TokShape.colon1 → h ≤ 9) :
    ∀ c ∈ renderTok sh h m, pyLowerChar c = c := by
  cases sh with
  | colon1 =>
    intro c hc
    simp only [renderTok, List.mem_cons, List.not_mem_nil, or_false] at hc
    rcases hc with rfl | rfl | rfl | rfl
    · exact (dc_facts (show h < 10 by have := h9 rfl; omega)).2.1
    · decide
    · exact (dc_facts (by omega)).2.1
    · exact (dc_facts (by omega)).2.1
  | colon2 =>
    intro c hc
    simp only [renderTok, List.mem_cons, List.not_mem_nil, or_false] at hc
    rcases hc with rfl | rfl | rfl | rfl | rfl
    · exact (dc_facts (by omega)).2.1
    · exact (dc_facts (by omega)).2.1
    · decide
    · exact (dc_facts (by omega)).2.1
    · exact (dc_facts (by omega)).2.1
  | compact =>
    intro c hc
    simp only [renderTok, List.mem_cons, List.not_mem_nil, or_false] at hc
    rcases hc with rfl | rfl | rfl | rfl
    · exact (dc_facts (by omega)).2.1
    · exact (dc_facts (by omega)).2.1
    · exact (dc_facts (by omega)).2.1
    · exact (dc_facts (by omega)).2.1

theorem render_head_nospace {sh : TokShape} {h m : Nat} (hh : h ≤ 23) (hm : m ≤ 59)
    (h9 : sh = TokShape.colon1 → h ≤ 9) (rest : List Char) :
    eatWsMore (renderTok sh h m ++ rest) = renderTok sh h m ++ rest := by
  cases sh with
  | colon1 =>
    exact eatWsMore_nospace (pyIsSpace_digit
      (dc_isDigit (show h < 10 by have := h9 rfl; omega)))
  | colon2 => exact eatWsMore_nospace (pyIsSpace_digit (dc_isDigit (by omega)))
  | compact => exact eatWsMore_nospace (pyIsSpace_digit (dc_isDigit (by omega)))

theorem render_colon_eat {sh : TokShape} {h m : Nat} (hsh : sh.isColon = true)
    (hh : h ≤ 23) (hm : m ≤ 59) (h9 : sh = TokShape.colon1 → h ≤ 9)
    (rest : List Char) :
    eatColonTok (renderTok sh h m ++ rest) = some (renderTok sh h m, rest) := by
  cases sh with
  | colon1 =>
    exact eatColonTok_w1 rest (dc_isDigit (show h < 10 by have := h9 rfl; omega))
      (dc_isDigit (by omega)) (dc_isDigit (by omega))
  | colon2 =>
    exact eatColonTok_w2 rest (dc_isDigit (by omega)) (dc_isDigit (by omega))
      (dc_isDigit (by omega)) (dc_isDigit (by omega))
  | compact => exact absurd hsh (by simp [TokShape.isColon])

theorem render_compact_eat {h m : Nat} (hh : h ≤ 23) (hm : m ≤ 59)
    (rest : List Char) :
    eat4d (renderTok TokShape.compact h m ++ rest) =
      some (renderTok TokShape.compact h m, rest) :=
  eat4d_ok rest (dc_isDigit (by omega)) (dc_isDigit (by omega))
    (dc_isDigit (by omega)) (dc_isDigit (by omega))

theorem render_colon_eat4d_fail {sh : TokShape} {h m : Nat} (hsh : sh.isColon = true)
    (rest : List Char) :
    eat4d (renderTok sh h m ++ rest) = none := by
  cases sh with
  | colon1 => exact eat4d_fail2 _ _ _ (by decide)
  | colon2 => exact eat4d_fail3 _ _ (by decide)
  | compact => exact absurd hsh (by simp [TokShape.isColon])

theorem render_compact_colontok_fail {h m : Nat} (hh : h ≤ 23) (hm : m ≤ 59)
    (rest : List Char) :
    eatColonTok (renderTok TokShape.compact h m ++ rest) = none :=
  eatColonTok_digits_fail _ _ (dc_isDigit (by omega)) (dc_isDigit (by omega))

/-! ### Anchored successes and failures of the between patterns -/

theorem attemptP1_hit_and (t1 t2 : List Char)
    (h1 : ∀ rest, eatColonTok (t1 ++ rest) = some (t1, rest))
    (h2 : eatColonTok t2 = some (t2, []))
    (hw : ∀ rest, eatWsMore (t1 ++ rest) = t1 ++ rest)
    (hw2 : eatWsMore t2 = t2) :
    attemptP1 ('b' :: 'e' :: 't' :: 'w' :: 'e' :: 'e' :: 'n' :: ' ' ::
      (t1 ++ ([' ', 'a', 'n', 'd', ' '] ++ t2))) = some (t1, t2) := by
  unfold attemptP1
  rw [afterBetween_hit, hw ([' ', 'a', 'n', 'd', ' '] ++ t2)]
  simp only [Option.some_bind]
  rw [h1 ([' ', 'a', 'n', 'd', ' '] ++ t2)]
  simp only [Option.some_bind]
  rw [show ([' ', 'a', 'n', 'd', ' '] ++ t2 : List Char) =
    ' ' :: ('a' :: 'n' :: 'd' :: (' ' :: t2)) from rfl, eatWs1_space,
    eatWsMore_nospace (show pyIsSpace 'a' = false by decide)]
  simp only [Option.some_bind]
  rw [show ('a' :: 'n' :: 'd' :: (' ' :: t2) : List Char) =
    (['a', 'n', 'd'] : List Char) ++ (' ' :: t2) from rfl, eatLit_append]
  simp only [orElseO, Option.some_bind]
  rw [eatWs1_space, hw2]
  simp only [Option.some_bind]
  rw [h2]
  rfl

theorem attemptP1_hit_to (t1 t2 : List Char)
    (h1 : ∀ rest, eatColonTok (t1 ++ rest) = some (t1, rest))
    (h2 : eatColonTok t2 = some (t2, []))
    (hw : ∀ rest, eatWsMore (t1 ++ rest) = t1 ++ rest)
    (hw2 : eatWsMore t2 = t2) :
    attemptP1 ('b' :: 'e' :: 't' :: 'w' :: 'e' :: 'e' :: 'n' :: ' ' ::
      (t1 ++ ([' ', 't', 'o', ' '] ++ t2))) = some (t1, t2) := by
  unfold attemptP1
  rw [afterBetween_hit, hw ([' ', 't', 'o', ' '] ++ t2)]
  simp only [Option.some_bind]
  rw [h1 ([' ', 't', 'o', ' '] ++ t2)]
  simp only [Option.some_bind]
  rw [show ([' ', 't', 'o', ' '] ++ t2 : List Char) =
    ' ' :: ('t' :: 'o' :: (' ' :: t2)) from rfl, eatWs1_space,
    eatWsMore_nospace (show pyIsSpace 't' = false by decide)]
  simp only [Option.some_bind]
  rw [eatLit_ne_head _ _ (show 't' ≠ 'a' by decide)]
  rw [show ('t' :: 'o' :: (' ' :: t2) : List Char) =
    (['t', 'o'] : List Char) ++ (' ' :: t2) from rfl, eatLit_append]
  simp only [orElseO, Option.some_bind]
  rw [eatWs1_space, hw2]
  simp only [Option.some_bind]
  rw [h2]
  rfl

theorem attemptP4_hit (t1 t2 : List Char)
    (h1 : ∀ rest, eatColonTok (t1 ++ rest) = some (t1, rest))
    (h2 : eatColonTok t2 = some (t2, []))
    (hw : ∀ rest, eatWsMore (t1 ++ rest) = t1 ++ rest) :
    attemptP4 ('b' :: 'e' :: 't' :: 'w' :: 'e' :: 'e' :: 'n' :: ' ' ::
      (t1 ++ (['-'] ++ t2))) = some (t1, t2) := by
  unfold attemptP4
  rw [afterBetween_hit, hw (['-'] ++ t2)]
  simp only [Option.some_bind]
  rw [h1 (['-'] ++ t2)]
  simp only [Option.some_bind]
  rw [eatLit_append]
  simp only [Option.some_bind]
  rw [h2]
  rfl

theorem attemptP2_hit_and (t1 t2 : List Char)
    (h1 : ∀ rest, eat4d (t1 ++ rest) = some (t1, rest))
    (h2 : eat4d t2 = some (t2, []))
    (hw : ∀ rest, eatWsMore (t1 ++ rest) = t1 ++ rest)
    (hw2 : eatWsMore t2 = t2) :
    attemptP2 ('b' :: 'e' :: 't' :: 'w' :: 'e' :: 'e' :: 'n' :: ' ' ::
      (t1 ++ ([' ', 'a', 'n', 'd', ' '] ++ t2))) = some (t1, t2) := by
  unfold attemptP2
  rw [afterBetween_hit, hw ([' ', 'a', 'n', 'd', ' '] ++ t2)]
  simp only [Option.some_bind]
  rw [h1 ([' ', 'a', 'n', 'd', ' '] ++ t2)]
  simp only [Option.some_bind]
  rw [show ([' ', 'a', 'n', 'd', ' '] ++ t2 : List Char) =
    ' ' :: ('a' :: 'n' :: 'd' :: (' ' :: t2)) from rfl, eatWs1_space,
    eatWsMore_nospace (show pyIsSpace 'a' = false by decide)]
  simp only [Option.some_bind]
  rw [show ('a' :: 'n' :: 'd' :: (' ' :: t2) : List Char) =
    (['a', 'n', 'd'] : List Char) ++ (' ' :: t2) from rfl, eatLit_append]
  simp only [orElseO, Option.some_bind]
  rw [eatWs1_space, hw2]
  simp only [Option.some_bind]
  rw [h2]
  rfl

theorem attemptP2_hit_to (t1 t2 : List Char)
    (h1 : ∀ rest, eat4d (t1 ++ rest) = some (t1, rest))
    (h2 : eat4d t2 = some (t2, []))
    (hw : ∀ rest, eatWsMore (t1 ++ rest) = t1 ++ rest)
    (hw2 : eatWsMore t2 = t2) :
    attemptP2 ('b' :: 'e' :: 't' :: 'w' :: 'e' :: 'e' :: 'n' :: ' ' ::
      (t1 ++ ([' ', 't', 'o', ' '] ++ t2))) = some (t1, t2) := by
  unfold attemptP2
  rw [afterBetween_hit, hw ([' ', 't', 'o', ' '] ++ t2)]
  simp only [Option.some_bind]
  rw [h1 ([' ', 't', 'o', ' '] ++ t2)]
  simp only [Option.some_bind]
  rw [show ([' ', 't', 'o', ' '] ++ t2 : List Char) =
    ' ' :: ('t' :: 'o' :: (' ' :: t2)) from rfl, eatWs1_space,
    eatWsMore_nospace (show pyIsSpace 't' = false by decide)]
  simp only [Option.some_bind]
  rw [eatLit_ne_head _ _ (show 't' ≠ 'a' by decide)]
  rw [show ('t' :: 'o' :: (' ' :: t2) : List Char) =
    (['t', 'o'] : List Char) ++ (' ' :: t2) from rfl, eatLit_append]
  simp only [orElseO, Option.some_bind]
  rw [eatWs1_space, hw2]
  simp only [Option.some_bind]
  rw [h2]
  rfl

theorem attemptP3_hit (t1 t2 : List Char)
    (h1 : ∀ rest, eat4d (t1 ++ rest) = some (t1, rest))
    (h2 : eat4d t2 = some (t2, []))
    (hw : ∀ rest, eatWsMore (t1 ++ rest) = t1 ++ rest) :
    attemptP3 ('b' :: 'e' :: 't' :: 'w' :: 'e' :: 'e' :: 'n' :: ' ' ::
      (t1 ++ (['-'] ++ t2))) = some (t1, t2) := by
  unfold attemptP3
  rw [afterBetween_hit, hw (['-'] ++ t2)]
  simp only [Option.some_bind]
  rw [h1 (['-'] ++ t2)]
  simp only [Option.some_bind]
  rw [eatLit_append]
  simp only [Option.some_bind]
  rw [h2]
  rfl

theorem attemptP1_pos0_fail_tok (x : List Char) (hx : eatWsMore x = x)
    (hfail : eatColonTok x = none) :
    attemptP1 ('b' :: 'e' :: 't' :: 'w' :: 'e' :: 'e' :: 'n' :: ' ' :: x) = none := by
  unfold attemptP1
  rw [afterBetween_hit, hx]
  simp only [Option.some_bind]
  rw [hfail]
  rfl

theorem attemptP1_pos0_fail_ws (t1 rest : List Char)
    (h1 : ∀ r, eatColonTok (t1 ++ r) = some (t1, r))
    (hw : eatWsMore (t1 ++ rest) = t1 ++ rest)
    (hrest : eatWs1 rest = none) :
    attemptP1 ('b' :: 'e' :: 't' :: 'w' :: 'e' :: 'e' :: 'n' :: ' ' ::
      (t1 ++ rest)) = none := by
  unfold attemptP1
  rw [afterBetween_hit, hw]
  simp only [Option.some_bind]
  rw [h1 rest]
  simp only [Option.some_bind]
  rw [hrest]
  rfl

theorem attemptP2_pos0_fail_tok (x : List Char) (hx : eatWsMore x = x)
    (hfail : eat4d x = none) :
    attemptP2 ('b' :: 'e' :: 't' :: 'w' :: 'e' :: 'e' :: 'n' :: ' ' :: x) = none := by
  unfold attemptP2
  rw [afterBetween_hit, hx]
  simp only [Option.some_bind]
  rw [hfail]
  rfl

theorem attemptP2_pos0_fail_ws (t1 rest : List Char)
    (h1 : ∀ r, eat4d (t1 ++ r) = some (t1, r))
    (hw : eatWsMore (t1 ++ rest) = t1 ++ rest)
    (hrest : eatWs1 rest = none) :
    attemptP2 ('b' :: 'e' :: 't' :: 'w' :: 'e' :: 'e' :: 'n' :: ' ' ::
      (t1 ++ rest)) = none := by
  unfold attemptP2
  rw [afterBetween_hit, hw]
  simp only [Option.some_bind]
  rw [h1 rest]
  simp only [Option.some_bind]
  rw [hrest]
  rfl

theorem attemptP3_pos0_fail_tok (x : List Char) (hx : eatWsMore x = x)
    (hfail : eat4d x = none) :
    attemptP3 ('b' :: 'e' :: 't' :: 'w' :: 'e' :: 'e' :: 'n' :: ' ' :: x) = none := by
  unfold attemptP3
  rw [afterBetween_hit, hx]
  simp only [Option.some_bind]
  rw [hfail]
  rfl

theorem attemptP3_pos0_fail_lit (t1 rest : List Char)
    (h1 : ∀ r, eat4d (t1 ++ r) = some (t1, r))
    (hw : eatWsMore (t1 ++ rest) = t1 ++ rest)
    (hrest : eatLit ['-'] rest = none) :
    attemptP3 ('b' :: 'e' :: 't' :: 'w' :: 'e' :: 'e' :: 'n' :: ' ' ::
      (t1 ++ rest)) = none := by
  unfold attemptP3
  rw [afterBetween_hit, hw]
  simp only [Option.some_bind]
  rw [h1 rest]
  simp only [Option.some_bind]
  rw [hrest]
  rfl

theorem reSearch_none_bhead {α : Type} (att : List Char → Option α)
    (hnil : att [] = none) (hne : ∀ c r, c ≠ 'b' → att (c :: r) = none)
    {tail : List Char} (h0 : att ('b' :: tail) = none)
    (hnb : ∀ c ∈ tail, c ≠ 'b') : reSearch att ('b' :: tail) = none := by
  rw [reSearch_cons_none h0]
  exact reSearch_none_of_no_b att hnil hne tail hnb

theorem tail_no_b {t1 t2 sepL : List Char} (h1 : ∀ c ∈ t1, c ≠ 'b')
    (h2 : ∀ c ∈ t2, c ≠ 'b') (hs : ∀ c ∈ sepL, c ≠ 'b') :
    ∀ c ∈ ('e' :: 't' :: 'w' :: 'e' :: 'e' :: 'n' :: ' ' ::
      (t1 ++ (sepL ++ t2))), c ≠ 'b' := by
  intro c hc
  simp only [List.mem_cons, List.mem_append] at hc
  rcases hc with rfl | rfl | rfl | rfl | rfl | rfl | rfl | hc | hc | hc
  · decide
  · decide
  · decide
  · decide
  · decide
  · decide
  · decide
  · exact h1 c hc
  · exact hs c hc
  · exact h2 c hc

/-- Composed search result: a same-shape between-pattern occupying the
whole query is found by the pattern loop, with the two tokens as groups. -/
theorem betweenGroups_hit (sh1 sh2 : TokShape) (sepL : List Char) (hA mA hB mB : Nat)
    (hsep : sepL = [' ', 'a', 'n', 'd', ' '] ∨ sepL = [' ', 't', 'o', ' '] ∨ sepL = ['-'])
    (hiso : sh1.isColon = sh2.isColon)
    (hhA : hA ≤ 23) (hmA : mA ≤ 59) (hhB : hB ≤ 23) (hmB : mB ≤ 59)
    (h9a : sh1 = TokShape.colon1 → hA ≤ 9) (h9b : sh2 = TokShape.colon1 → hB ≤ 9) :
    betweenGroups ('b' :: 'e' :: 't' :: 'w' :: 'e' :: 'e' :: 'n' :: ' ' ::
      (renderTok sh1 hA mA ++ (sepL ++ renderTok sh2 hB mB))) =
      some (renderTok sh1 hA mA, renderTok sh2 hB mB) := by
  have nb1 : ∀ c ∈ renderTok sh1 hA mA, c ≠ 'b' := render_no_b hhA hmA h9a
  have nb2 : ∀ c ∈ renderTok sh2 hB mB, c ≠ 'b' := render_no_b hhB hmB h9b
  have w1 : ∀ r, eatWsMore (renderTok sh1 hA mA ++ r) = renderTok sh1 hA mA ++ r :=
    render_head_nospace hhA hmA h9a
  have w2 : eatWsMore (renderTok sh2 hB mB) = renderTok sh2 hB mB := by
    have := render_head_nospace hhB hmB h9b []
    rwa [List.append_nil] at this
  by_cases hcol : sh1.isColon = true
  · have hcol2 : sh2.isColon = true := hiso ▸ hcol
    have e1 : ∀ r, eatColonTok (renderTok sh1 hA mA ++ r) =
        some (renderTok sh1 hA mA, r) := render_colon_eat hcol hhA hmA h9a
    have e2 : eatColonTok (renderTok sh2 hB mB) = some (renderTok sh2 hB mB, []) := by
      have := render_colon_eat hcol2 hhB hmB h9b []
      rwa [List.append_nil] at this
    rcases hsep with rfl | rfl | rfl
    · have hit := attemptP1_hit_and _ _ e1 e2 w1 w2
      unfold betweenGroups
      rw [reSearch_pos hit]
      rfl
    · have hit := attemptP1_hit_to _ _ e1 e2 w1 w2
      unfold betweenGroups
      rw [reSearch_pos hit]
      rfl
    · have tnb := tail_no_b nb1 nb2 (show ∀ c ∈ (['-'] : List Char), c ≠ 'b' by decide)
      have p1fail : attemptP1 ('b' :: 'e' :: 't' :: 'w' :: 'e' :: 'e' :: 'n' :: ' ' ::
          (renderTok sh1 hA mA ++ (['-'] ++ renderTok sh2 hB mB))) = none :=
        attemptP1_pos0_fail_ws _ _ e1 (w1 _)
          (eatWs1_nospace (show pyIsSpace '-' = false by decide))
      have p2fail : attemptP2 ('b' :: 'e' :: 't' :: 'w' :: 'e' :: 'e' :: 'n' :: ' ' ::
          (renderTok sh1 hA mA ++ (['-'] ++ renderTok sh2 hB mB))) = none :=
        attemptP2_pos0_fail_tok _ (w1 _) (render_colon_eat4d_fail hcol _)
      have p3fail : attemptP3 ('b' :: 'e' :: 't' :: 'w' :: 'e' :: 'e' :: 'n' :: ' ' ::
          (renderTok sh1 hA mA ++ (['-'] ++ renderTok sh2 hB mB))) = none :=
        attemptP3_pos0_fail_tok _ (w1 _) (render_colon_eat4d_fail hcol _)
      have hit := attemptP4_hit _ _ e1 e2 w1
      unfold betweenGroups
      rw [reSearch_none_bhead attemptP1 attemptP1_nil
          (fun c r h => attemptP1_ne_b h) p1fail tnb,
        reSearch_none_bhead attemptP2 attemptP2_nil
          (fun c r h => attemptP2_ne_b h) p2fail tnb,
        reSearch_none_bhead attemptP3 attemptP3_nil
          (fun c r h => attemptP3_ne_b h) p3fail tnb,
        reSearch_pos hit]
      rfl
  · have hsh1 : sh1 = TokShape.compact := by
      cases sh1 with
      | colon1 => exact absurd rfl hcol
      | colon2 => exact absurd rfl hcol
      | compact => rfl
    have hsh2 : sh2 = TokShape.compact := by
      rw [hsh1] at hiso
      cases sh2 with
      | colon1 => exact absurd hiso (by decide)
      | colon2 => exact absurd hiso (by decide)
      | compact => rfl
    subst hsh1 hsh2
    have e1 : ∀ r, eat4d (renderTok TokShape.compact hA mA ++ r) =
        some (renderTok TokShape.compact hA mA, r) := render_compact_eat hhA hmA
    have e2 : eat4d (renderTok TokShape.compact hB mB) =
        some (renderTok TokShape.compact hB mB, []) := by
      have := render_compact_eat hhB hmB []
      rwa [List.append_nil] at this
    have cfail : ∀ r, eatColonTok (renderTok TokShape.compact hA mA ++ r) = none :=
      render_compact_colontok_fail hhA hmA
    rcases hsep with rfl | rfl | rfl
    · have tnb := tail_no_b nb1 nb2
        (show ∀ c ∈ ([' ', 'a', 'n', 'd', ' '] : List Char), c ≠ 'b' by decide)
      have p1fail := attemptP1_pos0_fail_tok
        (renderTok TokShape.compact hA mA ++
          ([' ', 'a', 'n', 'd', ' '] ++ renderTok TokShape.compact hB mB))
        (w1 _) (cfail _)
      have hit := attemptP2_hit_and _ _ e1 e2 w1 w2
      unfold betweenGroups
      rw [reSearch_none_bhead attemptP1 attemptP1_nil
          (fun c r h => attemptP1_ne_b h) p1fail tnb,
        reSearch_pos hit]
      rfl
    · have tnb := tail_no_b nb1 nb2
        (show ∀ c ∈ ([' ', 't', 'o', ' '] : List Char), c ≠ 'b' by decide)
      have p1fail := attemptP1_pos0_fail_tok
        (renderTok TokShape.compact hA mA ++
          ([' ', 't', 'o', ' '] ++ renderTok TokShape.compact hB mB))
        (w1 _) (cfail _)
      have hit := attemptP2_hit_to _ _ e1 e2 w1 w2
      unfold betweenGroups
      rw [reSearch_none_bhead attemptP1 attemptP1_nil
          (fun c r h => attemptP1_ne_b h) p1fail tnb,
        reSearch_pos hit]
      rfl
    · have tnb := tail_no_b nb1 nb2 (show ∀ c ∈ (['-'] : List Char), c ≠ 'b' by decide)
      have p1fail := attemptP1_pos0_fail_tok
        (renderTok TokShape.compact hA mA ++
          (['-'] ++ renderTok TokShape.compact hB mB))
        (w1 _) (cfail _)
      have p2fail : attemptP2 ('b' :: 'e' :: 't' :: 'w' :: 'e' :: 'e' :: 'n' :: ' ' ::
          (renderTok TokShape.compact hA mA ++
            (['-'] ++ renderTok TokShape.compact hB mB))) = none :=
        attemptP2_pos0_fail_ws _ _ e1 (w1 _)
          (eatWs1_nospace (show pyIsSpace '-' = false by decide))
      have hit := attemptP3_hit _ _ e1 e2 w1
      unfold betweenGroups
      rw [reSearch_none_bhead attemptP1 attemptP1_nil
          (fun c r h => attemptP1_ne_b h) p1fail tnb,
        reSearch_none_bhead attemptP2 attemptP2_nil
          (fun c r h => attemptP2_ne_b h) p2fail tnb,
        reSearch_pos hit]
      rfl

/-- C1 as stated is false: a between phrase with mixed-shape tokens, such
as a colon-form start and a compact end, matches none of the four range
patterns, so the extractor falls through to the current-time default
instead of producing the explicit range `09:00`-`17:30`. -/
theorem between_mixed_shape_counterexample :
    parse_time_constraints "between 9:00 and 1730" = .ok (none, none, true) ∧
    parse_time_constraints "between 9:00 and 1730" ≠
      .ok (some "09:00", some "17:30", false) := by
  exact ⟨by decide, by decide⟩

/-- C1 amended: for a query consisting of a between phrase whose two time
tokens have the same textual shape (both colon forms, possibly of
different hour widths, or both compact), joined by " and ", " to ", or
"-", the extractor produces the explicit normalized range — mixed-shape
token pairs are not matched by any pattern and fall through. -/
theorem between_same_shape_explicit_range (sh1 sh2 : TokShape) (sep : String)
    (hA mA hB mB : Nat) (na nb : String)
    (hsep : sep ∈ ([" and ", " to ", "-"] : List String))
    (hiso : sh1.isColon = sh2.isColon)
    (hhA : hA ≤ 23) (hmA : mA ≤ 59) (hhB : hB ≤ 23) (hmB : mB ≤ 59)
    (h9a : sh1 = TokShape.colon1 → hA ≤ 9) (h9b : sh2 = TokShape.colon1 → hB ≤ 9)
    (hna : normalize_time ⟨renderTok sh1 hA mA⟩ = .ok na)
    (hnb : normalize_time ⟨renderTok sh2 hB mB⟩ = .ok nb)
    (hle : pyStrLt nb na = false) :
    parse_time_constraints
      ("between " ++ (⟨renderTok sh1 hA mA⟩ : String) ++ sep ++
        (⟨renderTok sh2 hB mB⟩ : String)) =
      .ok (some na, some nb, false) := by
  have hsd : sep.data = [' ', 'a', 'n', 'd', ' '] ∨
      sep.data = [' ', 't', 'o', ' '] ∨ sep.data = ['-'] := by
    simp only [List.mem_cons, List.not_mem_nil, or_false] at hsep
    rcases hsep with rfl | rfl | rfl
    · exact Or.inl rfl
    · exact Or.inr (Or.inl rfl)
    · exact Or.inr (Or.inr rfl)
  have hdata : ("between " ++ (⟨renderTok sh1 hA mA⟩ : String) ++ sep ++
      (⟨renderTok sh2 hB mB⟩ : String)).data =
      'b' :: 'e' :: 't' :: 'w' :: 'e' :: 'e' :: 'n' :: ' ' ::
        (renderTok sh1 hA mA ++ (sep.data ++ renderTok sh2 hB mB)) := by
    rw [String.data_append, String.data_append, String.data_append,
      show ("between " : String).data =
        ['b', 'e', 't', 'w', 'e', 'e', 'n', ' '] from rfl]
    simp [List.append_assoc]
  have hsepl : ∀ c ∈ sep.data, pyLowerChar c = c := by
    rcases hsd with h | h | h <;> rw [h] <;> decide
  have hlow : pyLower ("between " ++ (⟨renderTok sh1 hA mA⟩ : String) ++ sep ++
      (⟨renderTok sh2 hB mB⟩ : String)) =
      ("between " ++ (⟨renderTok sh1 hA mA⟩ : String) ++ sep ++
        (⟨renderTok sh2 hB mB⟩ : String)) := by
    apply pyLower_fix
    rw [hdata]
    intro c hc
    simp only [List.mem_cons, List.mem_append] at hc
    rcases hc with rfl | rfl | rfl | rfl | rfl | rfl | rfl | rfl | hc | hc | hc
    · decide
    · decide
    · decide
    · decide
    · decide
    · decide
    · decide
    · decide
    · exact render_lower hhA hmA h9a c hc
    · exact hsepl c hc
    · exact render_lower hhB hmB h9b c hc
  have hbg := betweenGroups_hit sh1 sh2 sep.data hA mA hB mB hsd hiso
    hhA hmA hhB hmB h9a h9b
  unfold parse_time_constraints
  rw [hlow, hdata, hbg]
  dsimp only
  rw [hna]
  dsimp only
  rw [hnb]
  dsimp only
  simp [hle]

theorem between_same_shape_explicit_range_witness :
    parse_time_constraints
      ("between " ++ (⟨renderTok TokShape.colon1 9 0⟩ : String) ++ " and " ++
        (⟨renderTok TokShape.colon2 17 30⟩ : String)) =
      .ok (some "09:00", some "17:30", false) ∧
    ("between " ++ (⟨renderTok TokShape.colon1 9 0⟩ : String) ++ " and " ++
      (⟨renderTok TokShape.colon2 17 30⟩ : String)) = "between 9:00 and 17:30" := by
  constructor
  · exact between_same_shape_explicit_range TokShape.colon1 TokShape.colon2 " and "
      9 0 17 30 "09:00" "17:30" (by decide) (by decide) (by omega) (by omega)
      (by omega) (by omega) (fun _ => by omega) (fun h => by cases h)
      (by decide) (by decide) (by decide)
  · decide
